import Mathlib

/-!
Verification of the core comment-bot pipeline of `src/main.py`
(class `RedditBot`): the eligibility check `_should_reply`, the
own-reply dedup scan, and the rate-limited dispatch loop
`_start_replying`.

Modelling conventions:
* Wall-clock instants and durations are rationals (seconds); Python's
  `datetime` arithmetic is exact to the microsecond, and `math.ceil` on
  `timedelta.total_seconds()` becomes `Int.ceil` on the rational.
* The external collaborators (bs4 text extraction, the compiled regex
  search, `reddit.user.me()`, the own-comment listing) are inputs: an
  `Env` record holds the functions/values the awaited calls return at
  the moment `_should_reply` runs.
* The dispatch loop is embedded one iteration at a time
  (`dispatchIter`); a run over a list of dequeued comments folds the
  iterations (`runDispatch`).  An uncaught exception from
  `comment.reply` is an `Except.error` outcome, which stops the fold,
  exactly as the uncaught Python exception ends the `while True` loop.
-/

namespace RedditBot

/-- A comment observed from the feed: `asyncpraw.reddit.Comment` fields the
core reads (`id`, `author`, `body_html`, `created_utc`). -/
structure Comment where
  id : String
  author : String
  body_html : String
  created_utc : ℚ
  deriving Repr, DecidableEq

/-- One entry of the bot's own reply history (`me.comments.new()`), exposing
its creation time and the id of the comment it was a reply to
(`my_comment.parent().id`). -/
structure OwnReply where
  id : String
  created_utc : ℚ
  parentId : String
  deriving Repr, DecidableEq

/-- The external collaborators as seen by one evaluation of
`_should_reply`: `getText` is `bs4.BeautifulSoup(...).get_text()`,
`patternSearch` is the truthiness of `compiled_pattern.search`, `me` is the
result of `reddit.user.me()` (`none` when the lookup returns nothing), and
`myReplies` is the newest-first own-comment listing. -/
structure Env where
  getText : String → String
  patternSearch : String → Bool
  me : Option String
  myReplies : List OwnReply

/-- The bot parameters the core reads (`RedditBotParams`): `dry_run`,
the reply body, and the cooldown `timeout` in seconds. -/
structure Params where
  dry_run : Bool
  reply : String
  timeout : ℚ
  deriving Repr, DecidableEq

/-- The mutable dispatch state of a `RedditBot` instance:
`_last_reply_time`, `_queued_comments`, and whether `_reply_lock` is held. -/
structure DispatchState where
  last_reply_time : ℚ
  queued_comments : List Comment
  reply_lock : Bool
  deriving Repr, DecidableEq

/-- The `async for raw_my_comment in me.comments.new():` loop of
`_should_reply` (src/main.py lines 111-120): walk the own replies
newest-first; stop (no dedup hit) at the first own reply older than the
target; report a hit at the first own reply whose parent is the target. -/
def scanReplies (myReplies : List OwnReply) (c : Comment) : Bool :=
  match myReplies with
  | [] => false
  | r :: rs =>
    if r.created_utc < c.created_utc then false
    else if r.parentId = c.id then true
    else scanReplies rs c

/-- `RedditBot._should_reply` (src/main.py lines 91-122) as a state
transformer over the bot's dispatch state: extract text, test the pattern,
resolve the own identity, refuse self-replies, then run the dedup scan.
The method only reads; the state is threaded through every step. -/
def shouldReplyS (env : Env) (c : Comment) (st : DispatchState) :
    Bool × DispatchState :=
  let text := env.getText c.body_html
  if env.patternSearch text = false then (false, st)
  else
    match env.me with
    | none => (false, st)
    | some m =>
      if c.author = m then (false, st)
      else if scanReplies env.myReplies c then (false, st)
      else (true, st)

/-- The Boolean decision of `_should_reply` (state-independent). -/
def should_reply (env : Env) (c : Comment) : Bool :=
  (shouldReplyS env c ⟨0, [], false⟩).1

/-- Observable log lines of one dispatch iteration. -/
inductive LogEvent where
  | sleeping (secs : ℤ)
  | doubleCheckFailed (cid : String)
  deriving Repr, DecidableEq

/-- A reply issued over the network: the target comment and the instant the
`comment.reply` call is made. -/
structure ReplyEvent where
  c : Comment
  t : ℚ
  deriving Repr, DecidableEq

/-- The observable effects of one dispatch iteration: seconds slept, log
lines, the fire-and-forget `_log_reply` task (by target id), and the
network reply call, if any. -/
structure IterResult where
  sleeps : List ℤ
  logs : List LogEvent
  logReply : Option String
  netReply : Option ReplyEvent
  deriving Repr, DecidableEq

/-- The nondeterministic inputs of one dispatch iteration: the dequeued
comment, the collaborator state at re-check time, the instant
`dt.datetime.now()` returns on line 132, the extra delays the event loop
adds after the sleep and around the reply call, and whether the
`comment.reply` network call succeeds. -/
structure IterInput where
  c : Comment
  env : Env
  tNow : ℚ
  delay1 : ℚ
  delay2 : ℚ
  replyOk : Bool

/-- Seconds slept by the iteration (lines 131-137): when the elapsed time
since the last reply is below the timeout, sleep
`math.ceil(wait_time.total_seconds())`; otherwise no sleep happens. -/
def sleepList (p : Params) (i : IterInput) (s : DispatchState) : List ℤ :=
  if i.tNow - s.last_reply_time < p.timeout then
    [⌈p.timeout - (i.tNow - s.last_reply_time)⌉]
  else []

/-- The "Replier sleeping" log line accompanying the sleep. -/
def sleepLogList (p : Params) (i : IterInput) (s : DispatchState) :
    List LogEvent :=
  if i.tNow - s.last_reply_time < p.timeout then
    [LogEvent.sleeping ⌈p.timeout - (i.tNow - s.last_reply_time)⌉]
  else []

/-- The instant the `comment.reply` call is issued (line 147): the pop-time
instant, plus the whole-second sleep, plus the event-loop delay between
waking and reaching the call. -/
def replyInstant (p : Params) (i : IterInput) (s : DispatchState) : ℚ :=
  i.tNow +
    (if i.tNow - s.last_reply_time < p.timeout then
      ((⌈p.timeout - (i.tNow - s.last_reply_time)⌉ : ℤ) : ℚ)
    else 0) + i.delay1

/-- The instant `dt.datetime.now()` returns on line 148, stored into
`_last_reply_time`: the reply instant plus the duration of the reply call. -/
def recordInstant (p : Params) (i : IterInput) (s : DispatchState) : ℚ :=
  replyInstant p i s + i.delay2

/-- One iteration of the `while True` body of `_start_replying`
(src/main.py lines 128-148), after `_queued_comments.get()` returned
`i.c`: sleep out the cooldown remainder if needed, take the lock, re-run
`_should_reply` and abandon the item if it fails, otherwise spawn the
`_log_reply` task, issue the network reply unless `dry_run`, and record
`_last_reply_time`.  A failing reply call raises: the iteration ends in
`Except.error` carrying the effects that already happened, and the loop
does not reach the next iteration. -/
def dispatchIter (p : Params) (i : IterInput) (s : DispatchState) :
    Except IterResult (DispatchState × IterResult) :=
  if should_reply i.env i.c = false then
    Except.ok (s,
      ⟨sleepList p i s,
        sleepLogList p i s ++ [LogEvent.doubleCheckFailed i.c.id],
        none, none⟩)
  else if p.dry_run then
    Except.ok ({ s with last_reply_time := recordInstant p i s },
      ⟨sleepList p i s, sleepLogList p i s, some i.c.id, none⟩)
  else if i.replyOk then
    Except.ok ({ s with last_reply_time := recordInstant p i s },
      ⟨sleepList p i s, sleepLogList p i s, some i.c.id,
        some ⟨i.c, replyInstant p i s⟩⟩)
  else
    Except.error ⟨sleepList p i s, sleepLogList p i s, some i.c.id, none⟩

/-- The effects of an iteration, whether it returned or raised. -/
def iterOutcome : Except IterResult (DispatchState × IterResult) → IterResult
  | Except.error r => r
  | Except.ok (_, r) => r

/-- The dispatch loop run over a finite sequence of dequeued comments,
collecting the network replies issued.  An `Except.error` iteration (an
uncaught exception from `comment.reply`) terminates the whole run. -/
def runDispatch (p : Params) (s : DispatchState) :
    List IterInput → Except IterResult (DispatchState × List ReplyEvent)
  | [] => Except.ok (s, [])
  | i :: rest =>
    match dispatchIter p i s with
    | Except.error r => Except.error r
    | Except.ok (s₁, res) =>
      match runDispatch p s₁ rest with
      | Except.error r => Except.error r
      | Except.ok (s_f, evs) => Except.ok (s_f, res.netReply.toList ++ evs)

/-- Newest-first ordering of an own-reply listing, as `me.comments.new()`
is documented to produce. -/
def sortedNewestFirst (l : List OwnReply) : Prop :=
  l.Pairwise fun a b => b.created_utc ≤ a.created_utc

/-- The collaborator state visible to one eligibility check accounts for a
reply already made to target `c`: the listing is newest-first and some
entry in it is a reply to `c` made no earlier than `c` itself. -/
def envAccounts (env : Env) (c : Comment) : Prop :=
  sortedNewestFirst env.myReplies ∧
  ∃ r ∈ env.myReplies, r.parentId = c.id ∧ c.created_utc ≤ r.created_utc

/-- Feed consistency along a run: at each iteration, the own-reply history
the platform reports accounts for every network reply the run itself
already issued to the same target id (`prior` accumulates them).  This is
the spec's trust assumption on the platform; the dedup scan has no
persisted already-replied set to fall back on. -/
def ConsistentFrom (p : Params) :
    DispatchState → List ReplyEvent → List IterInput → Prop
  | _, _, [] => True
  | s, prior, i :: rest =>
    (∀ e ∈ prior, e.c.id = i.c.id → envAccounts i.env i.c) ∧
    ∀ s₁ res, dispatchIter p i s = Except.ok (s₁, res) →
      ConsistentFrom p s₁ (prior ++ res.netReply.toList) rest

/-- Fixture: a comment from another user. -/
def cmtA : Comment := ⟨"c1", "alice", "hello", 0⟩

/-- Fixture: collaborators where the pattern matches everything, the bot is
"bot", and the own-reply history is empty. -/
def envYes : Env := ⟨id, fun _ => true, some "bot", []⟩

/-- Fixture: collaborators where the pattern matches nothing. -/
def envNo : Env := ⟨id, fun _ => false, some "bot", []⟩

/-- Fixture: collaborators whose own-reply history already contains a reply
to `cmtA` (made at time 5, after `cmtA`'s creation at 0). -/
def envHist : Env := ⟨id, fun _ => true, some "bot", [⟨"r1", 5, "c1"⟩]⟩

/-- Fixture: a live (non-dry-run) configuration with a 600-second cooldown. -/
def parNormal : Params := ⟨false, "hello there", 600⟩

/-- Fixture: initial dispatch state, last reply in the distant past. -/
def stInit : DispatchState := ⟨-1000000, [], false⟩

/-- Fixture: dispatch state whose last reply was 180 seconds before time 0. -/
def stRecent : DispatchState := ⟨-180, [], false⟩

/-- Fixture: an eligible dequeued item whose reply call succeeds. -/
def inGo : IterInput := ⟨cmtA, envYes, 0, 0, 0, true⟩

/-- Fixture: a dequeued item that fails the re-check (pattern no longer
matches). -/
def inAbandon : IterInput := ⟨cmtA, envNo, 0, 0, 0, true⟩

/-- Fixture: an eligible dequeued item whose reply call raises. -/
def inFail : IterInput := ⟨cmtA, envYes, 0, 0, 0, false⟩

/-- Fixture: `cmtA` dequeued a second time, after the history has recorded
the first reply to it. -/
def inDup : IterInput := ⟨cmtA, envHist, 700, 0, 0, true⟩

end RedditBot

namespace RedditBot

/-- Claim C3: the dedup scan reports a hit exactly when, among the
newest-first own replies *up to the first one strictly older than the
target* (the scan's stopping point), some reply's parent is the target's
id; in particular an exhausted sequence reports not-replied. -/
theorem scanReplies_takeWhile_spec (hist : List OwnReply) (c : Comment) :
    scanReplies hist c =
      ((hist.takeWhile fun r => decide (c.created_utc ≤ r.created_utc)).any
        fun r => decide (r.parentId = c.id)) := by
  induction hist with
  | nil => rfl
  | cons r rs ih =>
    by_cases hlt : r.created_utc < c.created_utc
    · have h2 : decide (c.created_utc ≤ r.created_utc) = false :=
        decide_eq_false (not_le.mpr hlt)
      simp [scanReplies, hlt, List.takeWhile_cons, h2]
    · have h2 : decide (c.created_utc ≤ r.created_utc) = true :=
        decide_eq_true (not_lt.mp hlt)
      by_cases hid : r.parentId = c.id
      · simp [scanReplies, hlt, hid, List.takeWhile_cons, h2, List.any_cons]
      · simp [scanReplies, hlt, hid, List.takeWhile_cons, h2, List.any_cons,
          ih]

/-- Claim C4: when the pattern does not match the extracted text, the
eligibility check is false whatever the own identity and own-reply history
are — the decision is made before either is consulted. -/
theorem should_reply_pattern_short_circuit (env : Env) (c : Comment)
    (h : env.patternSearch (env.getText c.body_html) = false) :
    ∀ (me' : Option String) (hist' : List OwnReply),
      should_reply { env with me := me', myReplies := hist' } c = false := by
  intro me' hist'
  simp [should_reply, shouldReplyS, h]

/-- Claim C4 witness. -/
theorem should_reply_pattern_short_circuit_witness :
    (Env.patternSearch ⟨id, fun _ => false, some "bot", []⟩
        (Env.getText ⟨id, fun _ => false, some "bot", []⟩
          (Comment.body_html ⟨"c1", "alice", "hello", 0⟩)) = false) ∧
    should_reply
      { (⟨id, fun _ => false, some "bot", []⟩ : Env) with
          me := some "alice", myReplies := [⟨"r1", 5, "c1"⟩] }
      ⟨"c1", "alice", "hello", 0⟩ = false :=
  ⟨rfl,
    should_reply_pattern_short_circuit ⟨id, fun _ => false, some "bot", []⟩
      ⟨"c1", "alice", "hello", 0⟩ rfl (some "alice") [⟨"r1", 5, "c1"⟩]⟩

/-- Claim C5: a comment authored by the bot's own resolved identity is never
eligible, even when the pattern matched. -/
theorem should_reply_never_self (env : Env) (c : Comment) (m : String)
    (hp : env.patternSearch (env.getText c.body_html) = true)
    (hm : env.me = some m) (ha : c.author = m) :
    should_reply env c = false := by
  simp [should_reply, shouldReplyS, hp, hm, ha]

/-- Claim C5 witness. -/
theorem should_reply_never_self_witness :
    (Env.patternSearch ⟨id, fun _ => true, some "bot", []⟩
        (Env.getText ⟨id, fun _ => true, some "bot", []⟩
          (Comment.body_html ⟨"c1", "bot", "hello", 0⟩)) = true) ∧
    (Env.me ⟨id, fun _ => true, some "bot", []⟩ = some "bot") ∧
    (Comment.author ⟨"c1", "bot", "hello", 0⟩ = "bot") ∧
    should_reply ⟨id, fun _ => true, some "bot", []⟩
      ⟨"c1", "bot", "hello", 0⟩ = false :=
  ⟨rfl, rfl, rfl,
    should_reply_never_self ⟨id, fun _ => true, some "bot", []⟩
      ⟨"c1", "bot", "hello", 0⟩ "bot" rfl rfl rfl⟩

/-- Claim C10: evaluating the eligibility check returns the dispatch state
it was given — `_should_reply` never writes `_last_reply_time`, the queue,
or the lock. -/
theorem should_reply_frame (env : Env) (c : Comment) (st : DispatchState) :
    (shouldReplyS env c st).2 = st := by
  unfold shouldReplyS
  by_cases h : env.patternSearch (env.getText c.body_html) = false
  · simp [h]
  · cases hm : env.me with
    | none => simp [h, hm]
    | some m =>
      by_cases ha : c.author = m
      · simp [h, hm, ha]
      · by_cases hs : scanReplies env.myReplies c
        · simp [h, hm, ha, hs]
        · simp [h, hm, ha, hs]

theorem iterOutcome_sleeps (p : Params) (i : IterInput) (s : DispatchState) :
    (iterOutcome (dispatchIter p i s)).sleeps = sleepList p i s := by
  unfold dispatchIter
  split_ifs <;> rfl

/-- Claim C6: a dequeued item that fails the re-check under the lock is
abandoned: the iteration returns normally (the loop continues), the
decision is logged, the dispatch state is unchanged, and neither the
`_log_reply` task nor the network reply happens. -/
theorem dispatch_recheck_abandons (p : Params) (i : IterInput)
    (s : DispatchState) (h : should_reply i.env i.c = false) :
    ∃ res : IterResult,
      dispatchIter p i s = Except.ok (s, res) ∧
      res.netReply = none ∧ res.logReply = none ∧
      LogEvent.doubleCheckFailed i.c.id ∈ res.logs := by
  refine ⟨⟨sleepList p i s,
    sleepLogList p i s ++ [LogEvent.doubleCheckFailed i.c.id], none, none⟩,
    ?_, rfl, rfl, ?_⟩
  · unfold dispatchIter
    rw [if_pos h]
  · simp

/-- Claim C6 witness. -/
theorem dispatch_recheck_abandons_witness :
    (should_reply inAbandon.env inAbandon.c = false) ∧
    ∃ res : IterResult,
      dispatchIter parNormal inAbandon stInit = Except.ok (stInit, res) ∧
      res.netReply = none ∧ res.logReply = none ∧
      LogEvent.doubleCheckFailed inAbandon.c.id ∈ res.logs :=
  ⟨rfl, dispatch_recheck_abandons parNormal inAbandon stInit rfl⟩

/-- Claim C7 counterexample: at a concrete eligible item whose reply call
raises, the iteration ends in `Except.error` — the uncaught exception
terminates the dispatch loop; it does not log the failure and continue to
the next item as the claim states. -/
theorem dispatch_reply_failure_cex :
    dispatchIter parNormal inFail stInit =
      Except.error ⟨[], [], some "c1", none⟩ ∧
    ∀ r : DispatchState × IterResult,
      dispatchIter parNormal inFail stInit ≠ Except.ok r := by
  have hs : should_reply inFail.env inFail.c = true := rfl
  have he : dispatchIter parNormal inFail stInit =
      Except.error ⟨[], [], some "c1", none⟩ := by
    unfold dispatchIter
    rw [if_neg (by simp [hs] : ¬ should_reply inFail.env inFail.c = false),
      if_neg (by simp [parNormal] : ¬ parNormal.dry_run = true),
      if_neg (by simp [inFail] : ¬ inFail.replyOk = true)]
    norm_num [sleepList, sleepLogList, parNormal, inFail, stInit, cmtA]
  refine ⟨he, ?_⟩
  intro r h
  rw [he] at h
  cases h

/-- Claim C7 amended: when the reply call for an eligible item fails, the
exception is not caught — the iteration ends in `Except.error` (carrying
only the effects that already happened: the sleep, its log line, and the
already-spawned `_log_reply` task), so the queue entry is dropped without
retry and the dispatch loop terminates instead of continuing. -/
theorem dispatch_reply_failure_terminates (p : Params) (i : IterInput)
    (s : DispatchState) (he : should_reply i.env i.c = true)
    (hd : p.dry_run = false) (hf : i.replyOk = false) :
    dispatchIter p i s =
      Except.error
        ⟨sleepList p i s, sleepLogList p i s, some i.c.id, none⟩ := by
  unfold dispatchIter
  rw [if_neg (by simp [he]), if_neg (by simp [hd]), if_neg (by simp [hf])]

/-- Claim C7 amended witness. -/
theorem dispatch_reply_failure_terminates_witness :
    (should_reply inFail.env inFail.c = true) ∧
    (parNormal.dry_run = false) ∧ (inFail.replyOk = false) ∧
    dispatchIter parNormal inFail stInit =
      Except.error ⟨sleepList parNormal inFail stInit,
        sleepLogList parNormal inFail stInit, some inFail.c.id, none⟩ :=
  ⟨rfl, rfl, rfl,
    dispatch_reply_failure_terminates parNormal inFail stInit rfl rfl rfl⟩

/-- Claim C8: on an eligible item, a dry-run iteration differs from a live
iteration with a succeeding reply call only in the network reply event:
same sleep, same logs, same `_log_reply` task, and the same updated
dispatch state — in particular `last_reply_time` advances to the same
current instant. -/
theorem dispatch_dry_run_frame (p : Params) (i : IterInput)
    (s : DispatchState) (he : should_reply i.env i.c = true)
    (hok : i.replyOk = true) :
    ∃ (s' : DispatchState) (resD resW : IterResult),
      dispatchIter { p with dry_run := true } i s = Except.ok (s', resD) ∧
      dispatchIter { p with dry_run := false } i s = Except.ok (s', resW) ∧
      s'.last_reply_time = recordInstant p i s ∧
      s'.queued_comments = s.queued_comments ∧
      s'.reply_lock = s.reply_lock ∧
      resD.sleeps = resW.sleeps ∧ resD.logs = resW.logs ∧
      resD.logReply = some i.c.id ∧ resW.logReply = some i.c.id ∧
      resD.netReply = none ∧
      resW.netReply = some ⟨i.c, replyInstant p i s⟩ := by
  refine ⟨{ s with last_reply_time := recordInstant p i s },
    ⟨sleepList p i s, sleepLogList p i s, some i.c.id, none⟩,
    ⟨sleepList p i s, sleepLogList p i s, some i.c.id,
      some ⟨i.c, replyInstant p i s⟩⟩,
    ?_, ?_, rfl, rfl, rfl, rfl, rfl, rfl, rfl, rfl, rfl⟩
  · unfold dispatchIter
    rw [if_neg (by simp [he]), if_pos rfl]
    rfl
  · unfold dispatchIter
    rw [if_neg (by simp [he]), if_neg (by simp), if_pos hok]
    rfl

/-- Claim C8 witness. -/
theorem dispatch_dry_run_frame_witness :
    (should_reply inGo.env inGo.c = true) ∧ (inGo.replyOk = true) ∧
    ∃ (s' : DispatchState) (resD resW : IterResult),
      dispatchIter { parNormal with dry_run := true } inGo stInit =
        Except.ok (s', resD) ∧
      dispatchIter { parNormal with dry_run := false } inGo stInit =
        Except.ok (s', resW) ∧
      s'.last_reply_time = recordInstant parNormal inGo stInit ∧
      s'.queued_comments = stInit.queued_comments ∧
      s'.reply_lock = stInit.reply_lock ∧
      resD.sleeps = resW.sleeps ∧ resD.logs = resW.logs ∧
      resD.logReply = some inGo.c.id ∧ resW.logReply = some inGo.c.id ∧
      resD.netReply = none ∧
      resW.netReply = some ⟨inGo.c, replyInstant parNormal inGo stInit⟩ :=
  ⟨rfl, rfl, dispatch_dry_run_frame parNormal inGo stInit rfl rfl⟩

/-- Claim C9: when the elapsed time since the last reply is below the
cooldown, the iteration sleeps exactly once, for the least whole number of
seconds that is at least `cooldown - elapsed` — the ceiling of the
remainder — and this holds whatever the iteration then does. -/
theorem dispatch_sleep_ceiling (p : Params) (i : IterInput)
    (s : DispatchState)
    (h : i.tNow - s.last_reply_time < p.timeout) :
    ∃ n : ℤ, (iterOutcome (dispatchIter p i s)).sleeps = [n] ∧
      p.timeout - (i.tNow - s.last_reply_time) ≤ (n : ℚ) ∧
      ∀ m : ℤ, p.timeout - (i.tNow - s.last_reply_time) ≤ (m : ℚ) → n ≤ m := by
  refine ⟨⌈p.timeout - (i.tNow - s.last_reply_time)⌉, ?_, Int.le_ceil _, ?_⟩
  · rw [iterOutcome_sleeps]
    unfold sleepList
    rw [if_pos h]
  · intro m hm
    exact Int.ceil_le.mpr hm

/-- Claim C9 witness: cooldown 600 s, last reply 180 s ago — the single
sleep is 420 s (7 minutes). -/
theorem dispatch_sleep_ceiling_witness :
    (inGo.tNow - stRecent.last_reply_time < parNormal.timeout) ∧
    (∃ n : ℤ, (iterOutcome (dispatchIter parNormal inGo stRecent)).sleeps
        = [n] ∧
      parNormal.timeout - (inGo.tNow - stRecent.last_reply_time) ≤ (n : ℚ) ∧
      ∀ m : ℤ,
        parNormal.timeout - (inGo.tNow - stRecent.last_reply_time) ≤ (m : ℚ) →
          n ≤ m) ∧
    (iterOutcome (dispatchIter parNormal inGo stRecent)).sleeps = [420] := by
  refine ⟨by norm_num [inGo, stRecent, parNormal], ?_, ?_⟩
  · exact dispatch_sleep_ceiling parNormal inGo stRecent
      (by norm_num [inGo, stRecent, parNormal])
  · rw [iterOutcome_sleeps]
    unfold sleepList
    rw [if_pos (by norm_num [inGo, stRecent, parNormal])]
    norm_num [inGo, stRecent, parNormal]

theorem replyInstant_lb (p : Params) (i : IterInput) (s : DispatchState)
    (hd1 : 0 ≤ i.delay1) :
    s.last_reply_time + p.timeout ≤ replyInstant p i s := by
  unfold replyInstant
  by_cases h : i.tNow - s.last_reply_time < p.timeout
  · rw [if_pos h]
    have hc := Int.le_ceil (p.timeout - (i.tNow - s.last_reply_time))
    linarith
  · rw [if_neg h]
    push_neg at h
    linarith

theorem recordInstant_lb (p : Params) (i : IterInput) (s : DispatchState)
    (hd1 : 0 ≤ i.delay1) (hd2 : 0 ≤ i.delay2) :
    s.last_reply_time + p.timeout ≤ recordInstant p i s := by
  have h1 := replyInstant_lb p i s hd1
  unfold recordInstant
  linarith

theorem replyInstant_le_recordInstant (p : Params) (i : IterInput)
    (s : DispatchState) (hd2 : 0 ≤ i.delay2) :
    replyInstant p i s ≤ recordInstant p i s := by
  unfold recordInstant
  linarith

theorem dispatchIter_ok_cases (p : Params) (i : IterInput)
    (s s' : DispatchState) (res : IterResult)
    (h : dispatchIter p i s = Except.ok (s', res)) :
    (s' = s ∧ res.netReply = none) ∨
    (s'.last_reply_time = recordInstant p i s ∧ res.netReply = none) ∨
    (s'.last_reply_time = recordInstant p i s ∧
      res.netReply = some ⟨i.c, replyInstant p i s⟩) := by
  unfold dispatchIter at h
  split_ifs at h with h1 h2 h3
  · simp only [Except.ok.injEq, Prod.mk.injEq] at h
    obtain ⟨h4, h5⟩ := h
    subst h4
    subst h5
    exact Or.inl ⟨rfl, rfl⟩
  · simp only [Except.ok.injEq, Prod.mk.injEq] at h
    obtain ⟨h4, h5⟩ := h
    subst h4
    subst h5
    exact Or.inr (Or.inl ⟨rfl, rfl⟩)
  · simp only [Except.ok.injEq, Prod.mk.injEq] at h
    obtain ⟨h4, h5⟩ := h
    subst h4
    subst h5
    exact Or.inr (Or.inr ⟨rfl, rfl⟩)

theorem dispatchIter_netReply_eq (p : Params) (i : IterInput)
    (s s' : DispatchState) (res : IterResult) (ev : ReplyEvent)
    (h : dispatchIter p i s = Except.ok (s', res))
    (hev : res.netReply = some ev) :
    ev = ⟨i.c, replyInstant p i s⟩ ∧
    s'.last_reply_time = recordInstant p i s := by
  rcases dispatchIter_ok_cases p i s s' res h with ⟨_, hn⟩ | ⟨_, hn⟩ | ⟨hl, hn⟩
  · rw [hn] at hev
    cases hev
  · rw [hn] at hev
    cases hev
  · rw [hn] at hev
    injection hev with h'
    exact ⟨h'.symm, hl⟩

theorem dispatchIter_last_cases (p : Params) (i : IterInput)
    (s s' : DispatchState) (res : IterResult)
    (h : dispatchIter p i s = Except.ok (s', res)) :
    s'.last_reply_time = s.last_reply_time ∨
    s'.last_reply_time = recordInstant p i s := by
  rcases dispatchIter_ok_cases p i s s' res h with ⟨he, _⟩ | ⟨hl, _⟩ | ⟨hl, _⟩
  · rw [he]
    exact Or.inl rfl
  · exact Or.inr hl
  · exact Or.inr hl

theorem chain_shift (T : ℚ) (l : List ℚ) (a b : ℚ) (hba : b ≤ a)
    (h : List.Chain (fun x y => x + T ≤ y) a l) :
    List.Chain (fun x y => x + T ≤ y) b l := by
  cases h with
  | nil => exact List.Chain.nil
  | cons hax hl => exact List.Chain.cons (by linarith) hl

theorem chain_to_chain' {α : Type} (R : α → α → Prop) (l : List α) (a : α)
    (h : List.Chain R a l) : List.Chain' R l := by
  cases h with
  | nil => exact trivial
  | cons hax hl => exact hl

theorem runDispatch_chain (p : Params) (hT : 0 ≤ p.timeout) :
    ∀ (inputs : List IterInput) (s s_f : DispatchState)
      (evs : List ReplyEvent),
      (∀ i ∈ inputs, 0 ≤ i.delay1 ∧ 0 ≤ i.delay2) →
      runDispatch p s inputs = Except.ok (s_f, evs) →
      List.Chain (fun a b => a + p.timeout ≤ b) s.last_reply_time
          (evs.map ReplyEvent.t) ∧
        s.last_reply_time ≤ s_f.last_reply_time ∧
        ∀ t ∈ evs.map ReplyEvent.t, t ≤ s_f.last_reply_time := by
  intro inputs
  induction inputs with
  | nil =>
    intro s s_f evs _ hrun
    simp only [runDispatch, Except.ok.injEq, Prod.mk.injEq] at hrun
    obtain ⟨h1, h2⟩ := hrun
    subst h1
    subst h2
    refine ⟨List.Chain.nil, le_refl _, ?_⟩
    intro t ht
    simp at ht
  | cons i rest ih =>
    intro s s_f evs hdel hrun
    have hdel_i := hdel i (List.mem_cons_self i rest)
    simp only [runDispatch] at hrun
    split at hrun
    · exact absurd hrun (by simp)
    · rename_i s₁ res hD
      split at hrun
      · exact absurd hrun (by simp)
      · rename_i s₂ evs₂ hR
        simp only [Except.ok.injEq, Prod.mk.injEq] at hrun
        obtain ⟨h1, h2⟩ := hrun
        subst h1
        subst h2
        obtain ⟨ihChain, ihLe, ihBound⟩ :=
          ih s₁ s₂ evs₂ (fun j hj => hdel j (List.mem_cons_of_mem i hj)) hR
        cases hev : res.netReply with
        | none =>
          have hs1 : s.last_reply_time ≤ s₁.last_reply_time := by
            rcases dispatchIter_last_cases p i s s₁ res hD with he | he
            · rw [he]
            · rw [he]
              have := recordInstant_lb p i s hdel_i.1 hdel_i.2
              linarith
          simp only [Option.toList_none, List.nil_append]
          refine ⟨chain_shift p.timeout _ _ _ hs1 ihChain, le_trans hs1 ihLe,
            ihBound⟩
        | some ev =>
          obtain ⟨hev_eq, hlast⟩ :=
            dispatchIter_netReply_eq p i s s₁ res ev hD hev
          have hlb : s.last_reply_time + p.timeout ≤ ev.t := by
            rw [hev_eq]
            exact replyInstant_lb p i s hdel_i.1
          have hup : ev.t ≤ s₁.last_reply_time := by
            rw [hev_eq, hlast]
            exact replyInstant_le_recordInstant p i s hdel_i.2
          simp only [Option.toList_some, List.singleton_append,
            List.map_cons, List.mem_cons]
          refine ⟨List.Chain.cons hlb (chain_shift p.timeout _ _ _ hup ihChain),
            ?_, ?_⟩
          · have := le_trans hup ihLe
            linarith
          · intro t ht
            rcases ht with ht | ht
            · subst ht
              exact le_trans hup ihLe
            · exact ihBound t ht

/-- Claim C1: along any run of the dispatch loop (any sequence of dequeued
comments, any collaborator states, any nonnegative event-loop delays), the
instants of consecutive issued replies are at least the configured cooldown
apart.  The proof gives the exact bound `t₁ + timeout ≤ t₂`, with no
rounding slack, because the slept whole-second ceiling is at least the
exact remainder. -/
theorem dispatch_cooldown_gap (p : Params) (s s_f : DispatchState)
    (inputs : List IterInput) (evs : List ReplyEvent)
    (hT : 0 ≤ p.timeout)
    (hdel : ∀ i ∈ inputs, 0 ≤ i.delay1 ∧ 0 ≤ i.delay2)
    (hrun : runDispatch p s inputs = Except.ok (s_f, evs)) :
    List.Chain' (fun t₁ t₂ => t₁ + p.timeout ≤ t₂) (evs.map ReplyEvent.t) :=
  chain_to_chain' _ _ _
    (runDispatch_chain p hT inputs s s_f evs hdel hrun).1

/-- Claim C1 witness. -/
theorem dispatch_cooldown_gap_witness :
    ((0:ℚ) ≤ parNormal.timeout) ∧
    (∀ i ∈ [inGo], 0 ≤ i.delay1 ∧ 0 ≤ i.delay2) ∧
    (runDispatch parNormal stInit [inGo] =
      Except.ok (⟨recordInstant parNormal inGo stInit, [], false⟩,
        [⟨cmtA, replyInstant parNormal inGo stInit⟩])) ∧
    List.Chain' (fun t₁ t₂ => t₁ + parNormal.timeout ≤ t₂)
      (([⟨cmtA, replyInstant parNormal inGo stInit⟩] :
          List ReplyEvent).map ReplyEvent.t) :=
  ⟨by norm_num [parNormal],
   by
    intro i hi
    simp only [List.mem_singleton] at hi
    subst hi
    exact ⟨le_refl 0, le_refl 0⟩,
   rfl,
   dispatch_cooldown_gap parNormal stInit
     ⟨recordInstant parNormal inGo stInit, [], false⟩ [inGo]
     [⟨cmtA, replyInstant parNormal inGo stInit⟩]
     (by norm_num [parNormal])
     (by
       intro i hi
       simp only [List.mem_singleton] at hi
       subst hi
       exact ⟨le_refl 0, le_refl 0⟩)
     rfl⟩

theorem scanReplies_hit (c : Comment) :
    ∀ hist : List OwnReply,
      List.Pairwise (fun a b => b.created_utc ≤ a.created_utc) hist →
      (∃ r ∈ hist, r.parentId = c.id ∧ c.created_utc ≤ r.created_utc) →
      scanReplies hist c = true := by
  intro hist
  induction hist with
  | nil =>
    intro _ hex
    obtain ⟨r, hr, _⟩ := hex
    simp at hr
  | cons r rs ih =>
    intro hsort hex
    obtain ⟨hhead, htail⟩ := List.pairwise_cons.mp hsort
    obtain ⟨r₀, hr₀mem, hr₀p, hr₀t⟩ := hex
    rcases List.mem_cons.mp hr₀mem with heq | hmem
    · subst heq
      have hnlt : ¬ r₀.created_utc < c.created_utc := not_lt.mpr hr₀t
      simp [scanReplies, hnlt, hr₀p]
    · have hle : r₀.created_utc ≤ r.created_utc := hhead r₀ hmem
      have hnlt : ¬ r.created_utc < c.created_utc :=
        not_lt.mpr (le_trans hr₀t hle)
      by_cases hid : r.parentId = c.id
      · simp [scanReplies, hnlt, hid]
      · have hrec := ih htail ⟨r₀, hmem, hr₀p, hr₀t⟩
        simp [scanReplies, hnlt, hid, hrec]

theorem should_reply_of_accounts (env : Env) (c : Comment)
    (h : envAccounts env c) : should_reply env c = false := by
  unfold envAccounts at h
  obtain ⟨hsort, hex⟩ := h
  unfold sortedNewestFirst at hsort
  have hscan : scanReplies env.myReplies c = true :=
    scanReplies_hit c env.myReplies hsort hex
  unfold should_reply shouldReplyS
  by_cases h1 : env.patternSearch (env.getText c.body_html) = false
  · simp [h1]
  · cases hm : env.me with
    | none => simp [h1, hm]
    | some m =>
      by_cases ha : c.author = m
      · simp [h1, hm, ha]
      · simp [h1, hm, ha, hscan]

theorem dispatchIter_abandon (p : Params) (i : IterInput)
    (s s' : DispatchState) (res : IterResult)
    (hsr : should_reply i.env i.c = false)
    (h : dispatchIter p i s = Except.ok (s', res)) :
    res.netReply = none := by
  unfold dispatchIter at h
  rw [if_pos hsr] at h
  simp only [Except.ok.injEq, Prod.mk.injEq] at h
  obtain ⟨_, h5⟩ := h
  subst h5
  rfl

theorem dispatchIter_netReply_c (p : Params) (i : IterInput)
    (s s' : DispatchState) (res : IterResult) (ev : ReplyEvent)
    (h : dispatchIter p i s = Except.ok (s', res))
    (hev : res.netReply = some ev) :
    ev.c = i.c := by
  obtain ⟨hev_eq, _⟩ := dispatchIter_netReply_eq p i s s' res ev h hev
  rw [hev_eq]

theorem runDispatch_nodup_aux (p : Params) :
    ∀ (inputs : List IterInput) (s s_f : DispatchState)
      (prior evs : List ReplyEvent),
      ConsistentFrom p s prior inputs →
      runDispatch p s inputs = Except.ok (s_f, evs) →
      (prior.map fun e => e.c.id).Nodup →
      ((prior ++ evs).map fun e => e.c.id).Nodup := by
  intro inputs
  induction inputs with
  | nil =>
    intro s s_f prior evs _ hrun hnd
    simp only [runDispatch, Except.ok.injEq, Prod.mk.injEq] at hrun
    obtain ⟨_, h2⟩ := hrun
    subst h2
    simpa using hnd
  | cons i rest ih =>
    intro s s_f prior evs hcons hrun hnd
    simp only [ConsistentFrom] at hcons
    obtain ⟨hacc, hnext⟩ := hcons
    simp only [runDispatch] at hrun
    split at hrun
    · exact absurd hrun (by simp)
    · rename_i s₁ res hD
      split at hrun
      · exact absurd hrun (by simp)
      · rename_i s₂ evs₂ hR
        simp only [Except.ok.injEq, Prod.mk.injEq] at hrun
        obtain ⟨h1, h2⟩ := hrun
        subst h1
        subst h2
        have hconsNext := hnext s₁ res hD
        cases hev : res.netReply with
        | none =>
          rw [hev] at hconsNext
          simp only [Option.toList_none, List.append_nil] at hconsNext
          have hres := ih s₁ s₂ prior evs₂ hconsNext hR hnd
          simpa using hres
        | some ev =>
          have hevc : ev.c = i.c :=
            dispatchIter_netReply_c p i s s₁ res ev hD hev
          have hnot : ev.c.id ∉ prior.map (fun e => e.c.id) := by
            intro hmem
            obtain ⟨e, hemem, heid⟩ := List.mem_map.mp hmem
            have hacc' : envAccounts i.env i.c :=
              hacc e hemem (by rw [heid, hevc])
            have hsr : should_reply i.env i.c = false :=
              should_reply_of_accounts i.env i.c hacc'
            have hnone : res.netReply = none :=
              dispatchIter_abandon p i s s₁ res hsr hD
            rw [hnone] at hev
            cases hev
          rw [hev] at hconsNext
          simp only [Option.toList_some] at hconsNext
          have hnd' : ((prior ++ [ev]).map fun e => e.c.id).Nodup := by
            rw [List.map_append, List.nodup_append]
            refine ⟨hnd, List.nodup_singleton _, ?_⟩
            intro x hx hx2
            simp only [List.map_cons, List.map_nil,
              List.mem_singleton] at hx2
            subst hx2
            exact hnot hx
          have hres := ih s₁ s₂ (prior ++ [ev]) evs₂ hconsNext hR hnd'
          rw [List.append_assoc] at hres
          simpa using hres

/-- Claim C2: along any run whose visible own-reply history is consistent
(each check's history is newest-first and accounts for every reply the run
already issued to the same id — the dedup scan's only source of truth, no
persisted set exists), the targets of the issued replies have pairwise
distinct ids: at most one reply per target id over the whole run. -/
theorem dispatch_at_most_one_reply_per_id (p : Params)
    (s s_f : DispatchState) (inputs : List IterInput)
    (evs : List ReplyEvent)
    (hcons : ConsistentFrom p s [] inputs)
    (hrun : runDispatch p s inputs = Except.ok (s_f, evs)) :
    (evs.map fun e => e.c.id).Nodup := by
  have h := runDispatch_nodup_aux p inputs s s_f [] evs hcons hrun (by simp)
  simpa using h

theorem envAccounts_dup : envAccounts inDup.env inDup.c := by
  unfold envAccounts
  refine ⟨?_, ⟨⟨"r1", 5, "c1"⟩, ?_, ?_, ?_⟩⟩
  · unfold sortedNewestFirst
    simp [inDup, envHist]
  · simp [inDup, envHist]
  · rfl
  · norm_num [inDup, cmtA]

theorem consistent_two_step :
    ConsistentFrom parNormal stInit [] [inGo, inDup] := by
  refine ⟨?_, ?_⟩
  · intro e he
    simp at he
  · intro s₁ res h
    refine ⟨?_, fun s₂ res₂ h₂ => trivial⟩
    intro e he hid
    exact envAccounts_dup

theorem run_two_step :
    runDispatch parNormal stInit [inGo, inDup] =
      Except.ok (⟨recordInstant parNormal inGo stInit, [], false⟩,
        [⟨cmtA, replyInstant parNormal inGo stInit⟩]) := by
  have hsr2 : should_reply inDup.env inDup.c = false :=
    should_reply_of_accounts _ _ envAccounts_dup
  have h1 : dispatchIter parNormal inGo stInit =
      Except.ok ((⟨recordInstant parNormal inGo stInit, [], false⟩ :
          DispatchState),
        ⟨sleepList parNormal inGo stInit, sleepLogList parNormal inGo stInit,
          some "c1", some ⟨cmtA, replyInstant parNormal inGo stInit⟩⟩) := rfl
  have h2 : dispatchIter parNormal inDup
        (⟨recordInstant parNormal inGo stInit, [], false⟩ : DispatchState) =
      Except.ok ((⟨recordInstant parNormal inGo stInit, [], false⟩ :
          DispatchState),
        ⟨sleepList parNormal inDup
            (⟨recordInstant parNormal inGo stInit, [], false⟩ :
              DispatchState),
          sleepLogList parNormal inDup
            (⟨recordInstant parNormal inGo stInit, [], false⟩ :
              DispatchState) ++ [LogEvent.doubleCheckFailed inDup.c.id],
          none, none⟩) := by
    unfold dispatchIter
    rw [if_pos hsr2]
  simp only [runDispatch, h1, h2, Option.toList_some, Option.toList_none,
    List.append_nil, List.nil_append]

/-- Claim C2 witness: a run that dequeues the same target twice, the second
time with a history recording the first reply, issues exactly one reply. -/
theorem dispatch_at_most_one_reply_per_id_witness :
    ConsistentFrom parNormal stInit [] [inGo, inDup] ∧
    (([⟨cmtA, replyInstant parNormal inGo stInit⟩] : List ReplyEvent).map
      (fun e => e.c.id)).Nodup :=
  ⟨consistent_two_step,
    dispatch_at_most_one_reply_per_id parNormal stInit
      ⟨recordInstant parNormal inGo stInit, [], false⟩ [inGo, inDup]
      [⟨cmtA, replyInstant parNormal inGo stInit⟩]
      consistent_two_step run_two_step⟩

end RedditBot
